import Mathlib

/-!
Shallow embedding of the chordcontroller repository
(src/chordcontroller/__init__.py) for checking its natural-language
specification: the command/undo-stack engine (`Invoker`), the target object
(`Instrument`), the input mapping state machine (`InputHandler`) and the
facade (`ChordController.execute_actions`), together with the numeric helper
`value_in_range`.

Python dicts are embedded as insertion-ordered association lists, Python
sets as duplicate-free lists, Python ints/floats as `Int`/`Rat`, and raised
exceptions as `Except` values.
-/

set_option autoImplicit false

deriving instance DecidableEq for Except

namespace CC

/-! ### Association-list embedding of Python dicts

`d[k] = v` updates the binding in place when the key exists (Python dicts
keep insertion order) and appends it otherwise; `d.pop(k)` removes it. -/

def alookup {κ ν : Type} [DecidableEq κ] : List (κ × ν) → κ → Option ν
  | [], _ => none
  | (k, v) :: rest, key => if k = key then some v else alookup rest key

def aupdate {κ ν : Type} [DecidableEq κ] : List (κ × ν) → κ → ν → List (κ × ν)
  | [], key, val => [(key, val)]
  | (k, v) :: rest, key, val =>
    if k = key then (key, val) :: rest else (k, v) :: aupdate rest key val

def aremove {κ ν : Type} [DecidableEq κ] : List (κ × ν) → κ → List (κ × ν)
  | [], _ => []
  | (k, v) :: rest, key => if k = key then rest else (k, v) :: aremove rest key

/-! ### Python numeric primitives

Attribute values and action parameters are embedded as `ℤ`: every value an
engine-level claim exercises is a Python int.  Axis processing works on
floats, embedded as `ℚ`.  Python `%` and `//` agree with `Int.emod` and
`Int.fdiv` for the positive moduli used by the source. -/

/-- Python `round(x, 3)`.  Exact (the identity) on every input whose
denominator divides 1000, which covers all inputs exercised here; on exact
half-thousandth ties the source rounds half to even while this rounds half
up, a difference no claim input reaches. -/
def round3 (q : ℚ) : ℚ := (⌊q * 1000 + 1/2⌋ : ℤ) / 1000

/-- Embedding of Python's float power `percent ** curve` as used by
`value_in_range`: exact whenever `curve` is an integer (`curve.den = 1`),
which covers every curve value any claim evaluates; for non-integer curve
the source's float power has no exact rational counterpart. -/
def qpow (x : ℚ) (curve : ℚ) : ℚ := x ^ curve.num

/-! ### Vector (src lines 78-107) -/

structure Vec where
  x : ℤ
  y : ℤ
  deriving DecidableEq, Repr

def Vec.neutral : Vec := ⟨0, 0⟩

/-- `Vector.is_adjacent_to`: true when the directions are diagonally
adjacent; false when equal or when either is `(0,0)`.  The source sorts the
pair of componentwise absolute differences and asks for `(0, 1)`. -/
def Vec.isAdjacentTo (a b : Vec) : Bool :=
  if a = Vec.neutral ∨ b = Vec.neutral then false
  else
    let d1 := (a.x - b.x).natAbs
    let d2 := (a.y - b.y).natAbs
    min d1 d2 = 0 ∧ max d1 d2 = 1

/-- `Vector.is_cardinal`: exactly one component is nonzero. -/
def Vec.isCardinal (a : Vec) : Bool := (a.x ≠ 0) ^^ (a.y ≠ 0)

/-- `Vector.is_diagonal`: both components are nonzero (Python truthiness of
`self[0] and self[1]`). -/
def Vec.isDiagonal (a : Vec) : Bool := a.x ≠ 0 ∧ a.y ≠ 0

/-! ### value_in_range (src lines 689-726) -/

inductive ValueErr where
  /-- `percent` outside `[0, 1]`. -/
  | percentOutOfRange
  /-- the guard `curve < 0` fired (its message claims `curve` must be
  greater than 0). -/
  | badCurve
  deriving DecidableEq, Repr

/-- `value_in_range(percent, value_at_min, value_at_max, curve=1.0,
inclusive=True, steps=[])`.  Raised `ValueError`s become `Except.error`. -/
def value_in_range (percent value_at_min value_at_max : ℚ) (curve : ℚ)
    (inclusive : Bool) (steps : List ℚ) : Except ValueErr ℚ :=
  if percent < 0 ∨ percent > 1 then .error .percentOutOfRange
  else if curve < 0 then .error .badCurve
  else if steps = [] then
    .ok ((value_at_max - value_at_min) * qpow percent curve + value_at_min)
  else
    let sorted := steps.mergeSort (· ≤ ·)
    let x := (value_at_max - value_at_min) / (sorted.length : ℚ)
    match sorted.findIdx? (fun step => percent < step) with
    | some i => .ok ((i : ℚ) * x + value_at_min)
    | none =>
      if inclusive then .ok value_at_max
      else .ok (((sorted.length - 1 : ℕ) : ℚ) * x + value_at_min)

example : value_in_range (2/5) 0 127 1 true [] = .ok (127 * (2/5)) := by
  simp [value_in_range, qpow]
  norm_num

example : value_in_range (3/2) 0 10 1 true [] = .error .percentOutOfRange := by
  simp [value_in_range]
  norm_num

/-! ### Music constants and Chord (src lines 23-76) -/

def MAJOR : ℤ := 0
def MINOR : ℤ := 1
def DIMINISHED : ℤ := 2
def DIMINISHED_SEVENTH : ℤ := 9
def MINOR_SEVENTH : ℤ := 10
def MAJOR_NINTH : ℤ := 14
def BASS_ROOT : ℤ := 1
def BASS_INVERSION : ℤ := 2

/-- `scale_position_data`: pairs `(root_pitch, quality)`. -/
def scale_position_data : List (ℤ × ℤ) :=
  [(0, MAJOR), (2, MINOR), (4, MINOR), (5, MAJOR), (7, MAJOR), (9, MINOR), (11, DIMINISHED)]

/-- `Chord(root, quality, extensions, voicing)`.  Python `//` and `%` on the
(positive) chord length are `Int.fdiv` and `Int.emod`. -/
def Chord (root : ℤ) (quality : ℤ) (extensions : List ℤ) (voicing : ℤ) : List ℤ :=
  let triad :=
    if quality = MINOR then [root, root + 3, root + 7]
    else if quality = DIMINISHED then [root, root + 3, root + 6]
    else [root, root + 4, root + 7]
  let chord := triad ++ extensions.map (fun x => root + x)
  if voicing = 0 then chord
  else
    (List.range chord.length).map (fun i =>
      let k : ℤ := (i : ℤ) + voicing
      let octave := Int.fdiv k (chord.length : ℤ)
      chord.getD (Int.emod k (chord.length : ℤ)).toNat 0 + octave * 12)

/-! ### Instrument (src lines 407-591)

The MIDI device is embedded as the `messages` log.  `assignLog` records each
`setattr` call the source performs on the instrument, so that claims about
whether an attribute assignment happens are statable; it is written only by
`Instrument.setattr`. -/

structure Instrument where
  octave : ℤ
  bass : ℤ
  tonic : ℤ
  tonic_offset : ℤ
  harmony : ℤ
  voicing : ℤ
  quality_modifier : ℤ
  extension_modifier : ℤ
  velocity : ℤ
  extra : List (String × ℤ)
  next : List (String × ℤ)
  chord : List ℤ
  playingNotes : List ℤ
  messages : List (ℤ × ℤ × ℤ)
  assignLog : List (String × ℤ)
  deriving DecidableEq, Repr

/-- `setattr(instrument, key, value)`.  The `octave`/`bass`/`tonic` property
setters normalize via `int(v) % 9` / `% 3` / `% 12` (Python `int()` is the
identity on the integer values embedded here); other keys store the value
directly, unknown keys landing in `extra` the way Python object attributes
do. -/
def Instrument.setattr (inst : Instrument) (key : String) (v : ℤ) : Instrument :=
  let inst := { inst with assignLog := inst.assignLog ++ [(key, v)] }
  if key = "octave" then { inst with octave := Int.emod v 9 }
  else if key = "bass" then { inst with bass := Int.emod v 3 }
  else if key = "tonic" then { inst with tonic := Int.emod v 12 }
  else if key = "tonic_offset" then { inst with tonic_offset := v }
  else if key = "harmony" then { inst with harmony := v }
  else if key = "voicing" then { inst with voicing := v }
  else if key = "quality_modifier" then { inst with quality_modifier := v }
  else if key = "extension_modifier" then { inst with extension_modifier := v }
  else if key = "velocity" then { inst with velocity := v }
  else { inst with extra := aupdate inst.extra key v }

/-- `getattr(instrument, key)`.  For an unknown key never assigned the
source raises `AttributeError`; the default 0 below is never observed by a
claim. -/
def Instrument.getattr (inst : Instrument) (key : String) : ℤ :=
  if key = "octave" then inst.octave
  else if key = "bass" then inst.bass
  else if key = "tonic" then inst.tonic
  else if key = "tonic_offset" then inst.tonic_offset
  else if key = "harmony" then inst.harmony
  else if key = "voicing" then inst.voicing
  else if key = "quality_modifier" then inst.quality_modifier
  else if key = "extension_modifier" then inst.extension_modifier
  else if key = "velocity" then inst.velocity
  else (alookup inst.extra key).getD 0

/-- `Instrument.set_next`.  On a falsy (here: zero) value the source calls
`unset_next(value)` — passing the value where a key is expected — which with
string keys and integer values removes nothing; the `key == "tonic"` branch
applies `int()`, the identity here. -/
def Instrument.set_next (inst : Instrument) (key : String) (v : ℤ) : Instrument :=
  if v = 0 then inst
  else { inst with next := aupdate inst.next key v }

/-- `Instrument.commit(key)`: pop the pending value and assign it; on
`KeyError` (nothing pending) return with no assignment. -/
def Instrument.commit (inst : Instrument) (key : String) : Instrument :=
  match alookup inst.next key with
  | none => inst
  | some v => Instrument.setattr { inst with next := aremove inst.next key } key v

/-- `construct_chord` with no keyword modifiers, as called by
`play_scale_position`.  Negative scale positions (Python negative indexing)
are not exercised by any claim; out-of-range indices default below where the
source would raise `IndexError`. -/
def Instrument.construct_chord (inst : Instrument) (scale_position : ℤ) : List ℤ :=
  let spd := scale_position_data.getD scale_position.toNat (0, 0)
  let root := inst.tonic + inst.octave * 12 + spd.1 + inst.tonic_offset
  let quality :=
    if inst.quality_modifier = 1 then (if spd.2 = 0 then 1 else 0)
    else if inst.quality_modifier = 2 then
      (if spd.2 ≠ DIMINISHED then DIMINISHED else MINOR)
    else spd.2
  let extensions :=
    if inst.extension_modifier = 1 then [MINOR_SEVENTH]
    else if inst.extension_modifier = 2 then
      (if quality = DIMINISHED then [DIMINISHED_SEVENTH] else [MINOR_SEVENTH, MAJOR_NINTH])
    else []
  let chord := Chord root quality extensions inst.voicing
  if inst.bass = BASS_ROOT then chord ++ [root - 12]
  else if inst.bass = BASS_INVERSION then chord ++ [chord.getD 0 0 - 12]
  else chord

/-- `send_note_on(note_values, velocity)`.  `_playing_notes` is a Python
set, embedded as a duplicate-free list: `update` appends the notes not
already present, `difference_update` filters them out. -/
def Instrument.send_note_on (inst : Instrument) (noteValues : List ℤ) (velocity : ℤ) :
    Instrument :=
  if noteValues = [] then inst
  else
    let inst :=
      { inst with messages := inst.messages ++ noteValues.map (fun p => (144, p, velocity)) }
    if velocity ≠ 0 then
      { inst with
        playingNotes :=
          noteValues.foldl (fun l n => if n ∈ l then l else l ++ [n]) inst.playingNotes }
    else
      { inst with playingNotes := inst.playingNotes.filter (fun n => n ∉ noteValues) }

/-- `Instrument.release`: note-on with velocity 0 for every playing note. -/
def Instrument.release (inst : Instrument) : Instrument :=
  inst.send_note_on inst.playingNotes 0

/-- `Instrument.play()` with the default `do_release=True`; the second
`send_note_on` uses `self.velocity`. -/
def Instrument.play (inst : Instrument) : Instrument :=
  let inst := inst.release
  inst.send_note_on inst.chord inst.velocity

def Instrument.set_chord_from_scale_position (inst : Instrument) (scale_position : ℤ) :
    Instrument :=
  { inst with chord := inst.construct_chord scale_position }

def Instrument.play_scale_position (inst : Instrument) (scale_position : ℤ) : Instrument :=
  (inst.set_chord_from_scale_position scale_position).play

/-- The instrument before `__init__` runs: no attributes assigned yet. -/
def Instrument.blank : Instrument :=
  ⟨0, 0, 0, 0, 0, 0, 0, 0, 0, [], [], [], [], [], []⟩

/-- `Instrument.__init__(octave=5)`: each `self.x = v` assignment runs
through the corresponding property setter / plain attribute `setattr`, in
source order. -/
def Instrument.init (octave : ℤ) : Instrument :=
  ((((((((Instrument.blank.setattr "octave" octave).setattr
      "tonic" 0).setattr "tonic_offset" 0).setattr "bass" 0).setattr
      "harmony" 0).setattr "voicing" 0).setattr "quality_modifier" 0).setattr
      "extension_modifier" 0).setattr "velocity" 127

example : (Instrument.init 5).octave = 5 := by decide
example : (Instrument.init 5).velocity = 127 := by decide
example : ((Instrument.init 5).play_scale_position 0).playingNotes = [60, 64, 67] := by decide

/-! ### Commands (src lines 130-283)

A Python `Command` instance is created once per registration tuple
`(name, obj, *args)` and cached, so object identity (`is`) coincides with
equality of tuples.  Each command name targets a single object — the
instrument, or the input handler for `mode` — so the tuple is embedded as
the inductive below. -/

inductive Action where
  | set (key : String) (v : ℤ)
  | set_next (key : String) (v : ℤ)
  | commit (key : String)
  | inc (key : String) (v : ℤ)
  | dec (key : String) (v : ℤ)
  | play_scale_position (position : ℤ)
  | send_cc (cn : ℤ) (cv : ℤ)
  | mode (m : String)
  deriving DecidableEq, Repr

/-- The values `Command.group_by()` can take for the registered command
classes, with the constant `name`/`obj` components left implicit (one
constructor per shape). -/
inductive GroupKey where
  | set (key : String)
  | set_next (key : String)
  | commit (key : String)
  | inc (key : String) (v : ℤ)
  | dec (key : String) (v : ℤ)
  | play_scale_position
  | send_cc (cn : ℤ) (cv : ℤ)
  | mode
  deriving DecidableEq, Repr

/-- `command.group_by()`.  `DecrementAttribute.__init__` negates its value
before storing, so a `dec` registered with value `v` groups by `-v`;
`play_scale_position` groups purely by name and object; `SetMode` is a
`SetAttribute` on the key `"mode"`, giving the single group `mode`;
`send_cc` (a `def_command` with the default param range) groups by both
parameters. -/
def Action.group_by : Action → GroupKey
  | .set key _ => .set key
  | .set_next key _ => .set_next key
  | .commit key => .commit key
  | .inc key v => .inc key v
  | .dec key v => .dec key (-v)
  | .play_scale_position _ => .play_scale_position
  | .send_cc cn cv => .send_cc cn cv
  | .mode _ => .mode

/-- The mutable state commands act on: the instrument, plus the input
handler's `mode` attribute (the target of `SetMode` commands). -/
structure SysState where
  inst : Instrument
  handlerMode : String
  deriving DecidableEq, Repr

/-- `command.execute()` for each command class.  A `dec` registered with
value `v` is an `IncrementAttribute` holding `-v`. -/
def Action.execute (a : Action) (s : SysState) : SysState :=
  match a with
  | .set key v => { s with inst := s.inst.setattr key v }
  | .set_next key v => { s with inst := s.inst.set_next key v }
  | .commit key => { s with inst := s.inst.commit key }
  | .inc key v => { s with inst := s.inst.setattr key (s.inst.getattr key + v) }
  | .dec key v => { s with inst := s.inst.setattr key (s.inst.getattr key - v) }
  | .play_scale_position p => { s with inst := s.inst.play_scale_position p }
  | .send_cc cn cv => { s with inst := { s.inst with messages := s.inst.messages ++ [(176, cn, cv)] } }
  | .mode m => { s with handlerMode := m }

/-- `command.revert` truthiness and effect: `some` exactly when the class
defines a revert method — `inc`/`dec` (inverse assignment),
`play_scale_position` (release), and `commit`, whose revert is an explicit
`pass` (`some` of the identity) — and `none` where the class attribute is
`revert = False` (`set`, `set_next`, `mode`, `send_cc`). -/
def Action.revert : Action → Option (SysState → SysState)
  | .inc key v => some (fun s => { s with inst := s.inst.setattr key (s.inst.getattr key - v) })
  | .dec key v => some (fun s => { s with inst := s.inst.setattr key (s.inst.getattr key + v) })
  | .play_scale_position _ => some (fun s => { s with inst := s.inst.release })
  | .commit _ => some (fun s => s)
  | _ => none

/-! ### Invoker (src lines 285-405) -/

structure Invoker where
  commands : List Action
  command_stacks : List (GroupKey × List Action)
  command_stack_limits : List (GroupKey × ℤ)
  deriving DecidableEq, Repr

def Invoker.empty : Invoker := ⟨[], [], []⟩

/-- `Invoker.add_command(cmd, stack_limit)`: return the cached command if
the tuple is known; otherwise register it, `setdefault` its group's stack to
empty, and (re)record the group's stack limit. -/
def Invoker.add_command (inv : Invoker) (cmd : Action) (stack_limit : ℤ) : Invoker :=
  if cmd ∈ inv.commands then inv
  else
    { commands := inv.commands ++ [cmd]
      command_stacks :=
        if (alookup inv.command_stacks cmd.group_by).isSome then inv.command_stacks
        else aupdate inv.command_stacks cmd.group_by []
      command_stack_limits := aupdate inv.command_stack_limits cmd.group_by stack_limit }

/-- The three `UndoError`s `Invoker._undo` can raise. -/
inductive UndoErr where
  | emptyStack
  | notInStack
  | unrevertibleBottom
  deriving DecidableEq, Repr

/-- The two call shapes of `Invoker._undo(command, stack, i_cmd)` used by
the source: `undo` passes `(command, stack)` (default `i_cmd = -1`,
triggering the identity search), and `do` passes `(None, stack, 0)`
(command defaulting to `stack[i_cmd]`). -/
inductive UndoSel where
  | byCommand (c : Action)
  | byIndex (i : ℕ)
  deriving DecidableEq, Repr

/-- The command/index resolution step of `Invoker._undo`: `undo`'s shape
searches the stack for the command by identity (`command is to_undo`,
first hit from the front); `do`'s shape indexes directly. -/
def resolveSel (sel : UndoSel) (stack : List Action) : Except UndoErr (ℕ × Action) :=
  match sel with
  | .byCommand c =>
    match stack.findIdx? (fun x => x == c) with
    | some i => .ok (i, c)
    | none => .error .notInStack
  | .byIndex i =>
    match stack.get? i with
    | some c => .ok (i, c)
    | none => .error .notInStack

/-- `Invoker._undo`: on an empty (or missing) stack raise; resolve the
command/index; run `revert` if the command has one, else if it is at the
top re-execute the entry below it (raising if there is none); finally drop
position `i` from the stack (`stack[:i] + stack[i+1:]`). -/
def undoCore (sel : UndoSel) (stack : List Action) (s : SysState) :
    Except UndoErr (List Action × SysState) :=
  if stack = [] then .error .emptyStack
  else
    match resolveSel sel stack with
    | .error e => .error e
    | .ok (i, c) =>
      match c.revert with
      | some rev => .ok (stack.eraseIdx i, rev s)
      | none =>
        if i = 0 then
          match stack with
          | [_] => .error .unrevertibleBottom
          | _ :: b :: _ => .ok (stack.eraseIdx i, b.execute s)
          | [] => .error .emptyStack
        else .ok (stack.eraseIdx i, s)

/-- A resolved index is a valid position in the stack. -/
theorem resolveSel_ok_lt (sel : UndoSel) (stack : List Action) (i : ℕ) (c : Action)
    (h : resolveSel sel stack = .ok (i, c)) : i < stack.length := by
  cases sel with
  | byCommand c0 =>
    cases hf : stack.findIdx? (fun x => x == c0) with
    | some j =>
      simp only [resolveSel, hf, Except.ok.injEq, Prod.mk.injEq] at h
      obtain ⟨h1, h2⟩ := h
      subst h1
      exact (List.findIdx?_eq_some_iff_findIdx_eq.mp hf).1
    | none =>
      simp [resolveSel, hf] at h
  | byIndex j =>
    cases hg : stack[j]? with
    | some c1 =>
      simp only [resolveSel, List.get?_eq_getElem?, hg, Except.ok.injEq, Prod.mk.injEq] at h
      obtain ⟨h1, h2⟩ := h
      subst h1
      exact (List.getElem?_eq_some_iff.mp hg).1
    | none =>
      simp [resolveSel, List.get?_eq_getElem?, hg] at h

/-- A successful `_undo` removes exactly one entry. -/
theorem undoCore_ok_length (sel : UndoSel) (stack : List Action) (s : SysState)
    (st : List Action) (s2 : SysState) (h : undoCore sel stack s = .ok (st, s2)) :
    st.length < stack.length := by
  unfold undoCore at h
  split at h
  · simp at h
  cases hres : resolveSel sel stack with
  | error e =>
    rw [hres] at h
    simp at h
  | ok ic =>
    obtain ⟨i, c⟩ := ic
    rw [hres] at h
    dsimp only at h
    have hi := resolveSel_ok_lt sel stack i c hres
    have herase : (stack.eraseIdx i).length = stack.length - 1 := by
      rw [List.length_eraseIdx]
      simp [hi]
    cases hrev : c.revert with
    | some rev =>
      rw [hrev] at h
      dsimp only at h
      cases h
      omega
    | none =>
      rw [hrev] at h
      dsimp only at h
      split at h
      · split at h
        · simp at h
        · cases h
          omega
        · simp at h
      · cases h
        omega

/-- The `while len(stack) >= stack_limit` eviction loop in `Invoker.do`:
force-undo the entry at index 0 until there is room; a raised `UndoError`
propagates.  Structural fuel keeps the definition kernel-computable; each
successful `_undo` removes one entry, so fuel above the stack length never
runs out (`evictLoopF_fuel`) and the fuel-exhausted branch is
unreachable from `evictLoop`. -/
def evictLoopF : ℕ → ℤ → List Action → SysState → Except UndoErr (List Action × SysState)
  | 0, _, stack, s => .ok (stack, s)
  | fuel + 1, stack_limit, stack, s =>
    if (stack.length : ℤ) ≥ stack_limit then
      match undoCore (.byIndex 0) stack s with
      | .error e => .error e
      | .ok (st, s2) => evictLoopF fuel stack_limit st s2
    else .ok (stack, s)

/-- Any fuel exceeding the stack length gives the same result: the loop
always terminates (by shrinking the stack, or by raising) before fuel could
matter. -/
theorem evictLoopF_fuel (stack_limit : ℤ) :
    ∀ (n : ℕ) (stack : List Action), stack.length ≤ n → ∀ (s : SysState) (f1 f2 : ℕ),
      stack.length < f1 → stack.length < f2 →
      evictLoopF f1 stack_limit stack s = evictLoopF f2 stack_limit stack s := by
  intro n
  induction n with
  | zero =>
    intro stack hlen s f1 f2 h1 h2
    cases f1 with
    | zero => omega
    | succ a =>
      cases f2 with
      | zero => omega
      | succ b =>
        simp only [evictLoopF]
        split
        · cases hu : undoCore (.byIndex 0) stack s with
          | error e => rfl
          | ok p =>
            obtain ⟨st, s2⟩ := p
            have hlt := undoCore_ok_length _ _ _ _ _ hu
            omega
        · rfl
  | succ n ih =>
    intro stack hlen s f1 f2 h1 h2
    cases f1 with
    | zero => omega
    | succ a =>
      cases f2 with
      | zero => omega
      | succ b =>
        simp only [evictLoopF]
        split
        · cases hu : undoCore (.byIndex 0) stack s with
          | error e => rfl
          | ok p =>
            obtain ⟨st, s2⟩ := p
            have hlt := undoCore_ok_length _ _ _ _ _ hu
            exact ih st (by omega) s2 a b (by omega) (by omega)
        · rfl

def evictLoop (stack_limit : ℤ) (stack : List Action) (s : SysState) :
    Except UndoErr (List Action × SysState) :=
  evictLoopF (stack.length + 1) stack_limit stack s

/-- Errors escaping the engine: the `KeyError` of an unregistered command
(`Invoker.do` without autoregistration, or the `self._commands[cmd]` lookup
in `Invoker.undo`), or a propagated `UndoError`. -/
inductive EngineErr where
  | keyError (cmd : Action)
  | undo (e : UndoErr)
  deriving DecidableEq, Repr

/-- The body of `Invoker.do` once the command is resolved: fetch the
group's limit (default 0) and stack (always present for a registered
command, since `add_command` created it), evict while at a positive limit,
execute, and push onto the front of the stack. -/
def Invoker.doResolved (inv : Invoker) (cmd : Action) (s : SysState) :
    Except EngineErr (Invoker × SysState) :=
  let stack_id := cmd.group_by
  let stack_limit := (alookup inv.command_stack_limits stack_id).getD 0
  let stack := (alookup inv.command_stacks stack_id).getD []
  let afterEvict :=
    if stack_limit > 0 then evictLoop stack_limit stack s else .ok (stack, s)
  match afterEvict with
  | .error e => .error (.undo e)
  | .ok (stack2, s2) =>
    .ok ({ inv with command_stacks := aupdate inv.command_stacks stack_id (cmd :: stack2) },
         cmd.execute s2)

/-- `Invoker.do(cmd, autoregister_if_unknown, stack_limit_if_unknown)`
(`do` is a Lean keyword, hence `doCmd`). -/
def Invoker.doCmd (inv : Invoker) (cmd : Action) (s : SysState)
    (autoregister_if_unknown : Bool) (stack_limit_if_unknown : ℤ) :
    Except EngineErr (Invoker × SysState) :=
  if cmd ∈ inv.commands then inv.doResolved cmd s
  else if autoregister_if_unknown then
    (inv.add_command cmd stack_limit_if_unknown).doResolved cmd s
  else .error (.keyError cmd)

/-- `Invoker.undo(cmd)`.  The lookup `self._commands[cmd]` raises a plain
`KeyError` — not an `UndoError` — when the command was never registered;
`self._command_stacks.get(stack_id)` may be `None`, which `_undo`'s
`if not stack` treats like an empty stack. -/
def Invoker.undo (inv : Invoker) (cmd : Action) (s : SysState) :
    Except EngineErr (Invoker × SysState × Action) :=
  if cmd ∈ inv.commands then
    let stack_id := cmd.group_by
    let stack := (alookup inv.command_stacks stack_id).getD []
    match undoCore (.byCommand cmd) stack s with
    | .error e => .error (.undo e)
    | .ok (st, s2) =>
      .ok ({ inv with command_stacks := aupdate inv.command_stacks stack_id st }, s2, cmd)
  else .error (.keyError cmd)

/-! ### ChordController.execute_actions (src lines 675-687)

The facade inserts the target object at position 1 of each action list
before calling the invoker; in the embedding the object is implicit in
`Action` (see above).  The `to_undo` lists the input handler produces only
ever contain complete (button/hat) actions, so both phases consume
`List Action`. -/

/-- The `to_undo` phase: `try: undo` with `except UndoError: pass` — the
`KeyError` of a never-registered command is NOT an `UndoError` and
propagates, aborting the loop. -/
def runUndos : Invoker → SysState → List Action → Except EngineErr (Invoker × SysState)
  | inv, s, [] => .ok (inv, s)
  | inv, s, a :: rest =>
    match inv.undo a s with
    | .ok (inv2, s2, _) => runUndos inv2 s2 rest
    | .error (.undo _) => runUndos inv s rest
    | .error (.keyError c) => .error (.keyError c)

/-- The `to_do` phase: `do` with autoregistration per
`allow_unknown_commands` and default stack limit 20; exceptions
propagate. -/
def runDos (allow_unknown : Bool) :
    Invoker → SysState → List Action → Except EngineErr (Invoker × SysState)
  | inv, s, [] => .ok (inv, s)
  | inv, s, a :: rest =>
    match inv.doCmd a s allow_unknown 20 with
    | .ok (inv2, s2) => runDos allow_unknown inv2 s2 rest
    | .error e => .error e

/-- `ChordController.execute_actions(response)`. -/
def execute_actions (inv : Invoker) (s : SysState) (to_undo to_do : List Action)
    (allow_unknown : Bool) : Except EngineErr (Invoker × SysState) :=
  match runUndos inv s to_undo with
  | .error e => .error e
  | .ok (inv2, s2) => runDos allow_unknown inv2 s2 to_do

/-- Scenario helper: a sequence of plain `Invoker.do` calls (no
autoregistration), stopping at the first raised exception. -/
def doSeq : Invoker → SysState → List Action → Except EngineErr (Invoker × SysState)
  | inv, s, [] => .ok (inv, s)
  | inv, s, a :: rest =>
    match inv.doCmd a s false 0 with
    | .ok (inv2, s2) => doSeq inv2 s2 rest
    | .error e => .error e

/-- A default system state: the instrument as `Instrument(octave=5)`
constructs it, the input handler in mode `"default"`. -/
def initState : SysState := ⟨Instrument.init 5, "default"⟩

example :
    (doSeq
      (((Invoker.empty.add_command (.set "velocity" 0) 2).add_command
          (.set "velocity" 1) 2).add_command (.set "velocity" 2) 2)
      initState
      [.set "velocity" 0, .set "velocity" 1, .set "velocity" 2]).map
      (fun p => (alookup p.1.command_stacks (.set "velocity"), p.2.inst.velocity))
    = .ok (some [.set "velocity" 2, .set "velocity" 0], 2) := by decide

/-! ### InputHandler (src lines 728-904) -/

/-- The pygame event fields `update` reads.  Events lacking a `joy`
attribute are skipped by the source's `AttributeError` handler and are not
represented. -/
inductive PyEvent where
  | buttonDown (joy : ℤ) (button : ℤ)
  | buttonUp (joy : ℤ) (button : ℤ)
  | hatMotion (joy : ℤ) (hat : ℤ) (value : Vec)
  | axisMotion (joy : ℤ) (axis : ℤ) (value : ℚ)
  deriving DecidableEq, Repr

def PyEvent.joy : PyEvent → ℤ
  | .buttonDown j _ => j
  | .buttonUp j _ => j
  | .hatMotion j _ _ => j
  | .axisMotion j _ _ => j

def PyEvent.isButtonDown : PyEvent → Bool
  | .buttonDown _ _ => true
  | _ => false

inductive Behavior where
  | momentary
  | latch
  | toggle
  deriving DecidableEq, Repr

/-- A button/hat binding `{do: [...], behavior: ..., on_release: ...}`:
`behavior` defaults to `momentary` and `on_release` to falsy when the keys
are absent. -/
structure ButtonBinding where
  doAct : Action
  behavior : Behavior
  on_release : Bool
  deriving DecidableEq, Repr

/-- The head of an axis binding's `do` list: the action minus its final
numeric parameter, to which the processed axis value is appended when the
event fires.  The source's untyped lists are typed here by action kind. -/
inductive AxisDoHead where
  | set (key : String)
  | set_next (key : String)
  | inc (key : String)
  | dec (key : String)
  deriving DecidableEq, Repr

/-- An axis binding; besides `do` its entries are passed to
`value_in_range` as keyword arguments, so absent keys take that function's
defaults (`curve=1`, `inclusive=True`, `steps=[]`). -/
structure AxisBinding where
  doHead : AxisDoHead
  value_at_min : ℚ
  value_at_max : ℚ
  curve : ℚ
  inclusive : Bool
  steps : List ℚ
  deriving DecidableEq, Repr

/-- Per-axis `{min, max}` calibration. -/
structure AxisCal where
  min : ℚ
  max : ℚ
  deriving DecidableEq, Repr

/-- One mode's mapping table. -/
structure Keymap where
  buttons : List (ℤ × List ButtonBinding)
  hats : List (String × List ButtonBinding)
  axes : List (ℤ × List AxisBinding)
  deriving DecidableEq, Repr

/-- An entry of an `update` output list: button/hat bindings queue their
complete `do` list; axis bindings queue `[*do, processed_value]` with the
processed value a float.  The source only ever appends complete actions to
`to_undo`, so that list is typed `List Action` directly. -/
inductive OutAction where
  | plain (a : Action)
  | scaled (head : AxisDoHead) (v : ℚ)
  deriving DecidableEq, Repr

/-- The state of `InputHandler`.  `hat_calibration` values are dicts of
which only the `easy_diagonals` key is ever read, embedded as the `Bool`
directly; `startup_commands` is carried but consumed only by the facade's
constructor, which no claim exercises. -/
structure InputHandler where
  joystick_index : ℤ
  most_recent_hat_vector : List (ℤ × Vec)
  axis_calibration : List (ℤ × AxisCal)
  mappings : List (String × Keymap)
  hat_calibration : List (ℤ × Bool)
  mode : String
  scheduled_events : List PyEvent
  startup_commands : List Action
  uncalibrated_axes : List ℤ
  toggle_states : List (String × Bool)
  deriving DecidableEq, Repr

/-- `clamp_axis_value(axis_id, raw_axis_value)` (it normalizes; despite the
name it does not clamp).  A missing calibration entry would be a `KeyError`
in the source; the default below is never observed by a claim. -/
def InputHandler.clamp_axis_value (h : InputHandler) (axis : ℤ) (raw : ℚ) : ℚ :=
  let calibration := (alookup h.axis_calibration axis).getD ⟨0, 1⟩
  (round3 raw - calibration.min) / (calibration.max - calibration.min)

/-- `_hat_key(hat, value)`: the string `"{hat}:{x}:{y}"`. -/
def hatKey (hat : ℤ) (value : Vec) : String :=
  toString hat ++ ":" ++ toString value.x ++ ":" ++ toString value.y

/-- The key string `"{mode}.{input_type}.{input_key}.{action_index}"` under
which `_get_toggle_state`/`_set_toggle_state` store a binding's toggle
flag. -/
def toggleKey (mode input_type input_key : String) (action_index : ℕ) : String :=
  mode ++ "." ++ input_type ++ "." ++ input_key ++ "." ++ toString action_index

/-- `_get_toggle_state`: stored flag, defaulting to `False`. -/
def InputHandler.get_toggle_state (h : InputHandler) (key : String) : Bool :=
  (alookup h.toggle_states key).getD false

/-- `_handle_toggle`: flip the stored per-binding boolean; the returned
`Bool` is `true` when the source would return `to_do` (the flag just became
true) and `false` for `to_undo`. -/
def InputHandler.handle_toggle (h : InputHandler) (input_type input_key : String)
    (action_index : ℕ) : InputHandler × Bool :=
  let key := toggleKey h.mode input_type input_key action_index
  let t := h.get_toggle_state key
  ({ h with toggle_states := aupdate h.toggle_states key (!t) }, !t)

/-- One binding of a button event (the body of the `enumerate(actions)`
loop): momentary routes by edge; latch/toggle fire only when the edge
matches `on_release`, latch always to `to_do`, toggle by
`_handle_toggle`. -/
def buttonStep (isDown : Bool) (button : ℤ)
    (st : InputHandler × List OutAction × List Action) (ib : ℕ × ButtonBinding) :
    InputHandler × List OutAction × List Action :=
  let (h, to_do, to_undo) := st
  let (i, data) := ib
  match data.behavior with
  | .momentary =>
    if isDown then (h, to_do ++ [.plain data.doAct], to_undo)
    else (h, to_do, to_undo ++ [data.doAct])
  | .latch =>
    if data.on_release = !isDown then (h, to_do ++ [.plain data.doAct], to_undo)
    else (h, to_do, to_undo)
  | .toggle =>
    if data.on_release = !isDown then
      let (h2, toDoSide) := h.handle_toggle "buttons" (toString button) i
      if toDoSide then (h2, to_do ++ [.plain data.doAct], to_undo)
      else (h2, to_do, to_undo ++ [data.doAct])
    else (h, to_do, to_undo)

/-- One binding of the "direction we just moved from" hat phase. -/
def hatReleaseStep (hat_key : String)
    (st : InputHandler × List OutAction × List Action) (ib : ℕ × ButtonBinding) :
    InputHandler × List OutAction × List Action :=
  let (h, to_do, to_undo) := st
  let (i, data) := ib
  match data.behavior with
  | .momentary => (h, to_do, to_undo ++ [data.doAct])
  | .latch =>
    if data.on_release then (h, to_do ++ [.plain data.doAct], to_undo)
    else (h, to_do, to_undo)
  | .toggle =>
    if data.on_release then
      let (h2, toDoSide) := h.handle_toggle "hats" hat_key i
      if toDoSide then (h2, to_do ++ [.plain data.doAct], to_undo)
      else (h2, to_do, to_undo ++ [data.doAct])
    else (h, to_do, to_undo)

/-- One binding of the "direction we just moved to" hat phase. -/
def hatPressStep (hat_key : String)
    (st : InputHandler × List OutAction × List Action) (ib : ℕ × ButtonBinding) :
    InputHandler × List OutAction × List Action :=
  let (h, to_do, to_undo) := st
  let (i, data) := ib
  match data.behavior with
  | .momentary => (h, to_do ++ [.plain data.doAct], to_undo)
  | .latch =>
    if !data.on_release then (h, to_do ++ [.plain data.doAct], to_undo)
    else (h, to_do, to_undo)
  | .toggle =>
    if !data.on_release then
      let (h2, toDoSide) := h.handle_toggle "hats" hat_key i
      if toDoSide then (h2, to_do ++ [.plain data.doAct], to_undo)
      else (h2, to_do, to_undo ++ [data.doAct])
    else (h, to_do, to_undo)

/-- The `for data in keymap.get("axes", {}).get(event.axis, [])` loop: each
binding maps the normalized value through `value_in_range` (whose
`ValueError` propagates) and appends `[*do, processed_value]` to `to_do`
(the source's `processed_value != None` test never fails, since
`value_in_range` returns a number). -/
def axisLoop (h : InputHandler) (axis : ℤ) (value : ℚ) :
    List OutAction → List AxisBinding → Except ValueErr (List OutAction)
  | to_do, [] => .ok to_do
  | to_do, data :: rest =>
    match value_in_range (h.clamp_axis_value axis value) data.value_at_min
        data.value_at_max data.curve data.inclusive data.steps with
    | .error e => .error e
    | .ok v => axisLoop h axis value (to_do ++ [.scaled data.doHead v]) rest

/-- The per-event-type dispatch of `update`, after the device check.  A
missing mode keymap would be a `KeyError` in the source; the empty default
is never observed by a claim. -/
def processEventCore (h : InputHandler) (to_do : List OutAction) (to_undo : List Action)
    (event : PyEvent) : Except ValueErr (InputHandler × List OutAction × List Action) :=
  let keymap := (alookup h.mappings h.mode).getD ⟨[], [], []⟩
  match event with
  | .buttonDown _ button =>
    .ok (((alookup keymap.buttons button).getD []).enum.foldl
      (buttonStep true button) (h, to_do, to_undo))
  | .buttonUp _ button =>
    .ok (((alookup keymap.buttons button).getD []).enum.foldl
      (buttonStep false button) (h, to_do, to_undo))
  | .hatMotion _ hat value =>
    let prevOpt := alookup h.most_recent_hat_vector hat
    let easy := (alookup h.hat_calibration hat).getD false
    -- easy diagonals: skip the whole event.  (With `easy_diagonals` set and
    -- a hat never seen before, the source would raise `AttributeError` on
    -- `None.is_diagonal`; no claim reaches that state.)
    let suppressed :=
      match prevOpt with
      | some p => easy && p.isDiagonal && p.isAdjacentTo value
      | none => false
    if suppressed then .ok (h, to_do, to_undo)
    else
      -- respond to the direction we just moved from (`if prev_value:` is
      -- false only for a missing entry — a `Vector` is a nonempty tuple,
      -- truthy even when neutral)
      let st :=
        match prevOpt with
        | some p =>
          let hk := hatKey hat p
          ((alookup keymap.hats hk).getD []).enum.foldl (hatReleaseStep hk) (h, to_do, to_undo)
        | none => (h, to_do, to_undo)
      let (h2, to_do2, to_undo2) := st
      let h3 := { h2 with
        most_recent_hat_vector := aupdate h2.most_recent_hat_vector hat value }
      if value = Vec.neutral then .ok (h3, to_do2, to_undo2)
      else
        let hk := hatKey hat value
        .ok (((alookup keymap.hats hk).getD []).enum.foldl
          (hatPressStep hk) (h3, to_do2, to_undo2))
  | .axisMotion _ axis value =>
    let h2 :=
      if axis ∈ h.uncalibrated_axes then
        { h with uncalibrated_axes := h.uncalibrated_axes.filter (fun a => a ≠ axis) }
      else h
    match axisLoop h2 axis value to_do ((alookup keymap.axes axis).getD []) with
    | .error e => .error e
    | .ok to_do2 => .ok (h2, to_do2, to_undo)

/-- One iteration of `update`'s event loop: the device-tracking check, then
the per-type dispatch.  The first button-down while no joystick is tracked
binds that event's device and continues processing the same event; events
from any other device are skipped. -/
def processEvent (st : InputHandler × List OutAction × List Action) (event : PyEvent) :
    Except ValueErr (InputHandler × List OutAction × List Action) :=
  let (h, to_do, to_undo) := st
  if event.joy ≠ h.joystick_index then
    if h.joystick_index < 0 ∧ event.isButtonDown then
      processEventCore { h with joystick_index := event.joy } to_do to_undo event
    else .ok (h, to_do, to_undo)
  else processEventCore h to_do to_undo event

def updateLoop : (InputHandler × List OutAction × List Action) → List PyEvent →
    Except ValueErr (InputHandler × List OutAction × List Action)
  | st, [] => .ok st
  | st, e :: rest =>
    match processEvent st e with
    | .error err => .error err
    | .ok st2 => updateLoop st2 rest

/-- `InputHandler.update(events)`: extend with (and clear) the scheduled
events, process each event, and return the handler with its
`{to_do, to_undo}` response. -/
def InputHandler.update (h : InputHandler) (events : List PyEvent) :
    Except ValueErr (InputHandler × List OutAction × List Action) :=
  let events2 := events ++ h.scheduled_events
  updateLoop ({ h with scheduled_events := [] }, [], []) events2

/-- A small handler fixture mirroring the repository's default mapping:
button 0 → momentary `set quality_modifier 1`, d-pad up → momentary
`play_scale_position 0`, axis 4 (calibrated to `[-1, 1]`) → `set velocity`
scaled from 112 down to 0.  Parameterized by the button-0 binding so that
behavior variants reuse it. -/
def sampleHandler (b0 : List ButtonBinding) : InputHandler :=
  { joystick_index := 0
    most_recent_hat_vector := [(0, ⟨0, 0⟩)]
    axis_calibration := [(4, ⟨-1, 1⟩)]
    mappings := [("default",
      { buttons := [(0, b0)]
        hats := [("0:0:1", [⟨.play_scale_position 0, .momentary, false⟩]),
                 ("0:-1:1", [⟨.play_scale_position 6, .momentary, false⟩]),
                 ("0:-1:0", [⟨.play_scale_position 4, .momentary, false⟩])]
        axes := [(4, [⟨.set "velocity", 112, 0, 1, true, []⟩])] })]
    hat_calibration := [(0, true)]
    mode := "default"
    scheduled_events := []
    startup_commands := []
    uncalibrated_axes := []
    toggle_states := [] }

example :
    (sampleHandler [⟨.set "quality_modifier" 1, .momentary, false⟩]).update
      [.buttonDown 0 0]
    = .ok (sampleHandler [⟨.set "quality_modifier" 1, .momentary, false⟩],
           [.plain (.set "quality_modifier" 1)], []) := by decide

example :
    (sampleHandler [⟨.set "quality_modifier" 1, .toggle, false⟩]).update
      [.buttonDown 0 0]
    = .ok ({ sampleHandler [⟨.set "quality_modifier" 1, .toggle, false⟩] with
             toggle_states := [("default.buttons.0.0", true)] },
           [.plain (.set "quality_modifier" 1)], []) := by decide

/-! ## The claims -/

/-- C10: after every assignment to `Instrument.octave` — direct assignment,
the `set` action, or `inc`/`dec`, all routed through the property setter —
the stored value is the assigned value mod 9 (Python `int()` is the
identity on the embedded integer values), hence an integer in `[0, 8]`;
`Instrument.bass` likewise wraps mod 3 into `[0, 2]`. -/
theorem c10_octave_bass_wrap (inst : Instrument) (s : SysState) (v : ℤ) :
    ((inst.setattr "octave" v).octave = Int.emod v 9
      ∧ 0 ≤ (inst.setattr "octave" v).octave
      ∧ (inst.setattr "octave" v).octave < 9)
    ∧ ((inst.setattr "bass" v).bass = Int.emod v 3
      ∧ 0 ≤ (inst.setattr "bass" v).bass
      ∧ (inst.setattr "bass" v).bass < 3)
    ∧ ((Action.set "octave" v).execute s).inst.octave = Int.emod v 9
    ∧ ((Action.inc "octave" v).execute s).inst.octave
        = Int.emod (s.inst.getattr "octave" + v) 9
    ∧ ((Action.dec "octave" v).execute s).inst.octave
        = Int.emod (s.inst.getattr "octave" - v) 9
    ∧ ((Action.set "bass" v).execute s).inst.bass = Int.emod v 3
    ∧ ((Action.inc "bass" v).execute s).inst.bass
        = Int.emod (s.inst.getattr "bass" + v) 3 := by
  have hsetO : (inst.setattr "octave" v).octave = Int.emod v 9 := by
    simp [Instrument.setattr]
  have hsetB : (inst.setattr "bass" v).bass = Int.emod v 3 := by
    simp [Instrument.setattr]
  refine ⟨⟨hsetO, ?_, ?_⟩, ⟨hsetB, ?_, ?_⟩, ?_, ?_, ?_, ?_, ?_⟩
  · rw [hsetO]; exact Int.emod_nonneg v (by norm_num)
  · rw [hsetO]; exact Int.emod_lt_of_pos v (by norm_num)
  · rw [hsetB]; exact Int.emod_nonneg v (by norm_num)
  · rw [hsetB]; exact Int.emod_lt_of_pos v (by norm_num)
  all_goals simp [Action.execute, Instrument.setattr]

/-- C9 (code bug in the source): `value_in_range` does reject every percent
outside `[0, 1]` and every negative curve, but its guard is `curve < 0`
while its own error message demands `curve` be greater than 0 — so the
non-positive value `curve = 0` slips through and silently returns
`value_at_max` (here 127 at percent 1/2) instead of raising. -/
theorem c9_curve_zero_not_rejected :
    value_in_range (1/2) 0 127 0 true [] = .ok 127 := by
  simp only [value_in_range, qpow]
  norm_num

/-- C5 counterexample: on the freshly initialized instrument nothing is
pending for `"octave"`, and `commit` does NOT re-apply the current value:
it performs no assignment at all (it returns the instrument unchanged,
assignment trace included), so it differs from `setattr` of the current
value, which the claim asserts it performs. -/
theorem c5_counterexample :
    alookup (Instrument.init 5).next "octave" = none
    ∧ (Instrument.init 5).commit "octave" = Instrument.init 5
    ∧ (Instrument.init 5).commit "octave"
        ≠ (Instrument.init 5).setattr "octave" ((Instrument.init 5).getattr "octave") := by
  decide

/-- C5 amended: when no pending value is staged for `key`, `commit` is a
pure no-op — it performs NO assignment (rather than re-applying the current
value, as claimed); when a pending value is staged it assigns it and clears
it; and commit's revert is the explicit identity (`some`), distinct from
absent (`none`). -/
theorem c5_commit_amended (inst : Instrument) (key : String) :
    (alookup inst.next key = none → inst.commit key = inst)
    ∧ (∀ v, alookup inst.next key = some v →
        inst.commit key = Instrument.setattr { inst with next := aremove inst.next key } key v)
    ∧ Action.revert (.commit key) = some (fun s => s) := by
  refine ⟨?_, ?_, rfl⟩
  · intro hnone
    simp [Instrument.commit, hnone]
  · intro v hsome
    simp [Instrument.commit, hsome]

theorem c5_commit_amended_witness :
    alookup (Instrument.init 5).next "octave" = none
    ∧ (Instrument.init 5).commit "octave" = Instrument.init 5 :=
  ⟨by decide, (c5_commit_amended (Instrument.init 5) "octave").1 (by decide)⟩

/-- Scenario for C2: a single registered `set velocity 1` command with no
stack limit. -/
def c2Invoker : Invoker := Invoker.empty.add_command (.set "velocity" 1) 0

/-- C2 counterexample: doing the same command instance twice with no
intervening undo leaves it in its group's stack TWICE — `Invoker.do` never
removes an existing occurrence, so the claimed at-most-once/move-to-front
invariant fails. -/
theorem c2_counterexample :
    (doSeq c2Invoker initState [.set "velocity" 1, .set "velocity" 1]).map
      (fun p => alookup p.1.command_stacks (.set "velocity"))
    = .ok (some [.set "velocity" 1, .set "velocity" 1])
    ∧ (doSeq c2Invoker initState [.set "velocity" 1, .set "velocity" 1]).map
      (fun p => ((alookup p.1.command_stacks (.set "velocity")).getD []).count
        (.set "velocity" 1))
    = .ok 2 := by
  exact ⟨by decide, by decide⟩

/-- C2 amended: `Invoker.do` always pushes the executed command onto the
front of its group's stack WITHOUT removing any existing occurrence (here
stated for a group with no positive depth limit, where no eviction
interferes): the new stack is literally `cmd :: S`, so an occurrence count
never decreases and duplicates arise. -/
theorem c2_do_pushes_without_dedup (inv : Invoker) (s : SysState) (cmd : Action)
    (S : List Action)
    (hreg : cmd ∈ inv.commands)
    (hstack : alookup inv.command_stacks cmd.group_by = some S)
    (hlim : (alookup inv.command_stack_limits cmd.group_by).getD 0 ≤ 0) :
    inv.doCmd cmd s false 0
      = .ok ({ inv with
                command_stacks := aupdate inv.command_stacks cmd.group_by (cmd :: S) },
             cmd.execute s)
    ∧ (cmd :: S).count cmd = S.count cmd + 1 := by
  constructor
  · unfold Invoker.doCmd
    rw [if_pos hreg]
    unfold Invoker.doResolved
    dsimp only
    rw [if_neg (not_lt.mpr hlim), hstack]
    dsimp only [Option.getD_some]
  · simp [List.count_cons]

theorem c2_witness :
    (.set "velocity" 1) ∈ c2Invoker.commands
    ∧ alookup c2Invoker.command_stacks (Action.set "velocity" 1).group_by = some []
    ∧ (alookup c2Invoker.command_stack_limits (Action.set "velocity" 1).group_by).getD 0 ≤ 0
    ∧ (c2Invoker.doCmd (.set "velocity" 1) initState false 0
        = .ok ({ c2Invoker with
                  command_stacks :=
                    aupdate c2Invoker.command_stacks (Action.set "velocity" 1).group_by
                      [.set "velocity" 1] },
               (Action.set "velocity" 1).execute initState)
      ∧ ([.set "velocity" 1] : List Action).count (.set "velocity" 1)
          = ([] : List Action).count (.set "velocity" 1) + 1) :=
  ⟨by decide, by decide, by decide,
    c2_do_pushes_without_dedup c2Invoker initState (.set "velocity" 1) []
      (by decide) (by decide) (by decide)⟩

/-- Scenario for C3: two `play_scale_position` commands, which share one
stack and carry a revert effect (`release`). -/
def c3Invoker : Invoker :=
  (Invoker.empty.add_command (.play_scale_position 0) 0).add_command
    (.play_scale_position 1) 0

/-- The C3 scenario run: play position 0, then position 1. -/
def c3Run : Except EngineErr (Invoker × SysState) :=
  doSeq c3Invoker initState [.play_scale_position 0, .play_scale_position 1]

/-- The C3 scenario, continued: undo the non-top `play 0`. -/
def c3Undone : Except EngineErr (Invoker × SysState × Action) :=
  match c3Run with
  | .ok (inv, s) => inv.undo (.play_scale_position 0) s
  | .error e => .error e

/-- C3 counterexample: after playing position 0 then position 1, the
command `play 0` sits in the shared stack BELOW the top; undoing it runs
its revert (`release`) anyway, silencing the playing chord — the target
state is NOT left unchanged, contrary to the claim. -/
theorem c3_counterexample :
    (c3Run.map (fun p =>
        (p.2.inst.playingNotes, alookup p.1.command_stacks .play_scale_position))
      = .ok ([62, 65, 69], some [.play_scale_position 1, .play_scale_position 0]))
    ∧ (c3Undone.map (fun q =>
        (alookup q.1.command_stacks .play_scale_position, q.2.1.inst.playingNotes))
      = .ok (some [.play_scale_position 1], [])) :=
  ⟨by decide, by decide⟩

/-- C3 amended: undoing a registered command that is in its group's stack
but not at the top removes it from the stack and leaves the state
unchanged PROVIDED the command has no revert effect; the source runs a
present revert effect regardless of stack position (see the
counterexample). -/
theorem c3_undo_nontop_norevert (inv : Invoker) (s : SysState) (cmd : Action)
    (S : List Action) (i : ℕ)
    (hreg : cmd ∈ inv.commands)
    (hstack : alookup inv.command_stacks cmd.group_by = some S)
    (hfind : S.findIdx? (fun x => x == cmd) = some i)
    (hi : i ≠ 0)
    (hrev : cmd.revert = none) :
    inv.undo cmd s
      = .ok ({ inv with
                command_stacks := aupdate inv.command_stacks cmd.group_by (S.eraseIdx i) },
             s, cmd) := by
  have hSne : S ≠ [] := by
    intro hS
    rw [hS] at hfind
    simp at hfind
  unfold Invoker.undo
  rw [if_pos hreg]
  dsimp only
  rw [hstack]
  dsimp only [Option.getD_some]
  unfold undoCore resolveSel
  rw [if_neg hSne]
  dsimp only
  rw [hfind]
  dsimp only
  rw [hrev]
  dsimp only
  rw [if_neg hi]

/-- Scenario for C3's witness: three `set velocity` commands stacked, with
`set velocity 1` below the top. -/
def c3WitInvoker : Invoker :=
  { commands := [.set "velocity" 0, .set "velocity" 1, .set "velocity" 2]
    command_stacks :=
      [(.set "velocity", [.set "velocity" 2, .set "velocity" 1, .set "velocity" 0])]
    command_stack_limits := [(.set "velocity", 0)] }

theorem c3_witness :
    (.set "velocity" 1) ∈ c3WitInvoker.commands
    ∧ alookup c3WitInvoker.command_stacks (Action.set "velocity" 1).group_by
        = some [.set "velocity" 2, .set "velocity" 1, .set "velocity" 0]
    ∧ ([.set "velocity" 2, .set "velocity" 1, .set "velocity" 0] : List Action).findIdx?
        (fun x => x == .set "velocity" 1) = some 1
    ∧ (1 : ℕ) ≠ 0
    ∧ (Action.set "velocity" 1).revert = none
    ∧ c3WitInvoker.undo (.set "velocity" 1) initState
      = .ok ({ c3WitInvoker with
                command_stacks :=
                  aupdate c3WitInvoker.command_stacks (Action.set "velocity" 1).group_by
                    (([.set "velocity" 2, .set "velocity" 1, .set "velocity" 0] :
                      List Action).eraseIdx 1) },
             initState, .set "velocity" 1) :=
  ⟨by decide, by decide, by decide, by decide, rfl,
    c3_undo_nontop_norevert c3WitInvoker initState (.set "velocity" 1)
      [.set "velocity" 2, .set "velocity" 1, .set "velocity" 0] 1
      (by decide) (by decide) (by decide) (by decide) rfl⟩

/-- `Invoker.undo` never changes the command registry. -/
theorem undo_commands_eq (inv : Invoker) (cmd : Action) (s : SysState)
    (inv2 : Invoker) (s2 : SysState) (c2 : Action)
    (h : inv.undo cmd s = .ok (inv2, s2, c2)) : inv2.commands = inv.commands := by
  unfold Invoker.undo at h
  split at h
  · dsimp only at h
    cases hu : undoCore (.byCommand cmd)
        ((alookup inv.command_stacks cmd.group_by).getD []) s with
    | error e =>
      rw [hu] at h
      simp at h
    | ok p =>
      obtain ⟨st, s3⟩ := p
      rw [hu] at h
      dsimp only at h
      cases h
      rfl
  · simp at h

/-- `Invoker.undo` of a REGISTERED command can only fail with an
`UndoError`, never the unregistered-command `KeyError`. -/
theorem undo_registered_no_keyError (inv : Invoker) (cmd : Action) (s : SysState)
    (c : Action) (hreg : cmd ∈ inv.commands)
    (h : inv.undo cmd s = .error (.keyError c)) : False := by
  unfold Invoker.undo at h
  rw [if_pos hreg] at h
  dsimp only at h
  cases hu : undoCore (.byCommand cmd)
      ((alookup inv.command_stacks cmd.group_by).getD []) s with
  | error e =>
    rw [hu] at h
    simp at h
  | ok p =>
    obtain ⟨st, s3⟩ := p
    rw [hu] at h
    simp at h

/-- The undo phase completes on any list of registered commands: each undo
either succeeds or raises an `UndoError`, which is swallowed. -/
theorem runUndos_ok_of_registered (to_undo : List Action) :
    ∀ (inv : Invoker) (s : SysState), (∀ a ∈ to_undo, a ∈ inv.commands) →
      ∃ out, runUndos inv s to_undo = .ok out := by
  induction to_undo with
  | nil =>
    intro inv s _
    exact ⟨(inv, s), rfl⟩
  | cons a rest ih =>
    intro inv s h
    have ha : a ∈ inv.commands := h a (by simp)
    cases hu : inv.undo a s with
    | ok p =>
      obtain ⟨inv2, s2, c2⟩ := p
      have hc := undo_commands_eq inv a s inv2 s2 c2 hu
      obtain ⟨out, hout⟩ :=
        ih inv2 s2 (fun b hb => hc ▸ h b (List.mem_cons_of_mem _ hb))
      refine ⟨out, ?_⟩
      unfold runUndos
      rw [hu]
      exact hout
    | error e =>
      cases e with
      | keyError c => exact absurd hu (fun hk => undo_registered_no_keyError inv a s c ha hk)
      | undo e2 =>
        obtain ⟨out, hout⟩ := ih inv s (fun b hb => h b (List.mem_cons_of_mem _ hb))
        refine ⟨out, ?_⟩
        unfold runUndos
        rw [hu]
        exact hout

/-- C4 counterexample: a `to_undo` action whose command was never
registered makes `execute_actions` raise the unregistered-command
`KeyError` — only `UndoError` is caught — so the call aborts instead of
completing. -/
theorem c4_counterexample :
    (.set "velocity" 1) ∉ Invoker.empty.commands
    ∧ execute_actions Invoker.empty initState [.set "velocity" 1] [] true
      = .error (.keyError (.set "velocity" 1)) :=
  ⟨by decide, by decide⟩

/-- C4 amended: the Controller Facade silently swallows the undo-path
failures raised as `UndoError` — empty or missing stack, command not in its
stack, unrevertible bottom — so a `to_undo` pass over REGISTERED commands
always completes and continues with the remaining actions; but an action
whose command was never registered raises `KeyError` from the command
lookup, which `execute_actions` does not catch (see the counterexample). -/
theorem c4_registered_undo_failures_swallowed (to_undo : List Action) (allow : Bool)
    (inv : Invoker) (s : SysState)
    (hreg : ∀ a ∈ to_undo, a ∈ inv.commands) :
    ∃ out, execute_actions inv s to_undo [] allow = .ok out := by
  obtain ⟨out, hout⟩ := runUndos_ok_of_registered to_undo inv s hreg
  obtain ⟨inv2, s2⟩ := out
  refine ⟨(inv2, s2), ?_⟩
  unfold execute_actions
  rw [hout]
  rfl

/-- Scenario for C4's witness: a registered `set velocity 1` whose stack is
empty, so its undo raises (and is swallowed). -/
def c4WitInvoker : Invoker := Invoker.empty.add_command (.set "velocity" 1) 0

theorem c4_witness :
    (∀ a ∈ [Action.set "velocity" 1], a ∈ c4WitInvoker.commands)
    ∧ ∃ out, execute_actions c4WitInvoker initState [.set "velocity" 1] [] true
        = .ok out :=
  ⟨by decide,
    c4_registered_undo_failures_swallowed [.set "velocity" 1] true c4WitInvoker initState
      (by decide)⟩

/-- A successful forced undo at index 0 (the shape `do`'s eviction loop
uses) removes exactly the TOP entry: the remaining stack is the tail. -/
theorem undoCore_byIndex0_tail (S : List Action) (s : SysState) (S2 : List Action)
    (s2 : SysState) (h : undoCore (.byIndex 0) S s = .ok (S2, s2)) : S2 = S.tail := by
  cases S with
  | nil => simp [undoCore] at h
  | cons a t =>
    cases hrev : a.revert with
    | some rev =>
      have hc : undoCore (.byIndex 0) (a :: t) s = .ok (t, rev s) := by
        simp [undoCore, resolveSel, hrev]
      rw [hc] at h
      cases h
      rfl
    | none =>
      cases t with
      | nil =>
        simp [undoCore, resolveSel, hrev] at h
      | cons b t2 =>
        have hc : undoCore (.byIndex 0) (a :: b :: t2) s = .ok (b :: t2, b.execute s) := by
          simp [undoCore, resolveSel, hrev]
        rw [hc] at h
        cases h
        rfl

/-- One iteration of the eviction loop: while the stack is at or above the
limit, force-undo index 0 and continue with the remainder. -/
theorem evictLoopF_step (fuel : ℕ) (N : ℤ) (stack : List Action) (s : SysState)
    (st : List Action) (s2 : SysState)
    (hge : (stack.length : ℤ) ≥ N)
    (hev : undoCore (.byIndex 0) stack s = .ok (st, s2)) :
    evictLoopF (fuel + 1) N stack s = evictLoopF fuel N st s2 := by
  simp only [evictLoopF]
  rw [if_pos hge, hev]

/-- The eviction loop exits as soon as the stack is below the limit. -/
theorem evictLoopF_done (fuel : ℕ) (N : ℤ) (stack : List Action) (s : SysState)
    (hlt : ¬ ((stack.length : ℤ) ≥ N)) :
    evictLoopF (fuel + 1) N stack s = .ok (stack, s) := by
  simp only [evictLoopF]
  rw [if_neg hlt]

/-- Scenario for C1: three `set velocity` commands in one group with stack
depth limit 2 (mirroring the repository's own `test_invoker_stack_limit`). -/
def c1Invoker : Invoker :=
  ((Invoker.empty.add_command (.set "velocity" 0) 2).add_command
      (.set "velocity" 1) 2).add_command (.set "velocity" 2) 2

/-- C1 counterexample: with limit N = 2, after N + 1 = 3 `do` calls the
stack does hold N entries, but the force-evicted entry is `set velocity 1` —
the most recent at eviction time — while the OLDEST (bottom) entry
`set velocity 0` survives at the bottom, contradicting oldest-first
eviction. -/
theorem c1_counterexample :
    (doSeq c1Invoker initState
      [.set "velocity" 0, .set "velocity" 1, .set "velocity" 2]).map
      (fun p => alookup p.1.command_stacks (.set "velocity"))
    = .ok (some [.set "velocity" 2, .set "velocity" 0]) := by
  decide

/-- C1 amended: when the group's stack already holds its positive limit N,
`do` force-evicts from the TOP — `_undo(None, stack, 0)` removes the most
recent entry (re-executing the entry below it when the top has no revert
effect) — then executes and pushes the new command, leaving `cmd :: S.tail`:
again N entries, with the oldest (bottom) entry retained, not evicted. -/
theorem c1_do_evicts_top (inv : Invoker) (s : SysState) (cmd : Action)
    (S : List Action) (N : ℤ) (S2 : List Action) (s2 : SysState)
    (hreg : cmd ∈ inv.commands)
    (hlim : alookup inv.command_stack_limits cmd.group_by = some N)
    (hN : 0 < N)
    (hstack : alookup inv.command_stacks cmd.group_by = some S)
    (hlen : (S.length : ℤ) = N)
    (hev : undoCore (.byIndex 0) S s = .ok (S2, s2)) :
    S2 = S.tail
    ∧ inv.doCmd cmd s false 0
      = .ok ({ inv with
                command_stacks :=
                  aupdate inv.command_stacks cmd.group_by (cmd :: S.tail) },
             cmd.execute s2)
    ∧ ((cmd :: S.tail).length : ℤ) = N := by
  have htail : S2 = S.tail := undoCore_byIndex0_tail S s S2 s2 hev
  have hne : S ≠ [] := by
    intro hS
    rw [hS] at hlen
    simp at hlen
    omega
  have hlt : S2.length < S.length := undoCore_ok_length _ _ _ _ _ hev
  have hlen2 : S.length = S2.length + 1 := by
    rw [htail]
    cases S with
    | nil => exact absurd rfl hne
    | cons a t => simp
  have hevict : evictLoop N S s = .ok (S2, s2) := by
    unfold evictLoop
    rw [evictLoopF_step S.length N S s S2 s2 (by omega) hev]
    rw [hlen2]
    exact evictLoopF_done S2.length N S2 s2 (by omega)
  refine ⟨htail, ?_, ?_⟩
  · unfold Invoker.doCmd
    rw [if_pos hreg]
    unfold Invoker.doResolved
    dsimp only
    rw [hlim]
    dsimp only [Option.getD_some]
    rw [if_pos hN, hstack]
    dsimp only [Option.getD_some]
    rw [hevict, htail]
  · rw [← htail]
    simp only [List.length_cons]
    push_cast
    omega

/-- Scenario for C1's witness: limit 2, stack already at
`[set velocity 1, set velocity 0]`, about to do `set velocity 2`. -/
def c1WitInvoker : Invoker :=
  { commands := [.set "velocity" 0, .set "velocity" 1, .set "velocity" 2]
    command_stacks := [(.set "velocity", [.set "velocity" 1, .set "velocity" 0])]
    command_stack_limits := [(.set "velocity", 2)] }

theorem c1_witness :
    (.set "velocity" 2) ∈ c1WitInvoker.commands
    ∧ alookup c1WitInvoker.command_stack_limits (Action.set "velocity" 2).group_by
        = some 2
    ∧ (0 : ℤ) < 2
    ∧ alookup c1WitInvoker.command_stacks (Action.set "velocity" 2).group_by
        = some [.set "velocity" 1, .set "velocity" 0]
    ∧ (([.set "velocity" 1, .set "velocity" 0] : List Action).length : ℤ) = 2
    ∧ undoCore (.byIndex 0) [.set "velocity" 1, .set "velocity" 0] initState
        = .ok ([.set "velocity" 0], (Action.set "velocity" 0).execute initState)
    ∧ (([.set "velocity" 0] : List Action)
          = ([.set "velocity" 1, .set "velocity" 0] : List Action).tail
      ∧ c1WitInvoker.doCmd (.set "velocity" 2) initState false 0
        = .ok ({ c1WitInvoker with
                  command_stacks :=
                    aupdate c1WitInvoker.command_stacks (Action.set "velocity" 2).group_by
                      (.set "velocity" 2 ::
                        ([.set "velocity" 1, .set "velocity" 0] : List Action).tail) },
               (Action.set "velocity" 2).execute
                 ((Action.set "velocity" 0).execute initState))
      ∧ ((Action.set "velocity" 2 ::
            ([.set "velocity" 1, .set "velocity" 0] : List Action).tail).length : ℤ) = 2) :=
  ⟨by decide, by decide, by decide, by decide, by decide, by decide,
    c1_do_evicts_top c1WitInvoker initState (.set "velocity" 2)
      [.set "velocity" 1, .set "velocity" 0] 2 [.set "velocity" 0]
      ((Action.set "velocity" 0).execute initState)
      (by decide) (by decide) (by decide) (by decide) (by decide) (by decide)⟩

/-- C8: easy-diagonal suppression.  With `easy_diagonals` enabled for the
hat, a remembered previous vector that is diagonal and diagonally adjacent
to the incoming vector (per `Vector.is_adjacent_to`: the vectors differ in
exactly one component by exactly 1 and neither is neutral) makes `update`
skip the event entirely: no `to_do` or `to_undo` actions are produced and
the handler — the remembered hat vector included — is returned unchanged. -/
theorem c8_diagonal_suppression (h : InputHandler) (hat : ℤ) (p v : Vec)
    (hsched : h.scheduled_events = [])
    (heasy : alookup h.hat_calibration hat = some true)
    (hprev : alookup h.most_recent_hat_vector hat = some p)
    (hdiag : p.isDiagonal = true)
    (hadj : p.isAdjacentTo v = true) :
    h.update [.hatMotion h.joystick_index hat v] = .ok (h, [], []) := by
  obtain ⟨ji, mrv, ac, mp, hc, md, se, sc, ua, ts⟩ := h
  simp only [InputHandler.scheduled_events] at hsched
  subst hsched
  simp [InputHandler.update, updateLoop, processEvent, processEventCore,
    PyEvent.joy, PyEvent.isButtonDown, hprev, heasy, hdiag, hadj]

/-- Witness handler for C8: remembered hat vector `(1, 1)` (up-right). -/
def c8Handler : InputHandler :=
  { sampleHandler [] with most_recent_hat_vector := [(0, ⟨1, 1⟩)] }

theorem c8_witness :
    c8Handler.scheduled_events = []
    ∧ alookup c8Handler.hat_calibration 0 = some true
    ∧ alookup c8Handler.most_recent_hat_vector 0 = some ⟨1, 1⟩
    ∧ (Vec.mk 1 1).isDiagonal = true
    ∧ (Vec.mk 1 1).isAdjacentTo ⟨1, 0⟩ = true
    ∧ c8Handler.update [.hatMotion c8Handler.joystick_index 0 ⟨1, 0⟩]
        = .ok (c8Handler, [], []) :=
  ⟨by decide, by decide, by decide, by decide, by decide,
    c8_diagonal_suppression c8Handler 0 ⟨1, 1⟩ ⟨1, 0⟩
      (by decide) (by decide) (by decide) (by decide) (by decide)⟩

/-- C7: toggle alternation.  For a button bound (in the active mode's
table) to a single toggle binding firing on press, a button-down event from
the tracked device routes the action by the flag stored under
`"{mode}.buttons.{button}.{index}"`: flag `false` (the initial state —
lookups default to `false`) queues to `to_do` and stores `true`; flag
`true` queues to `to_undo` and stores `false`.  Since the flag lives in the
returned handler's `toggle_states`, successive `update` calls alternate
`to_do, to_undo, to_do, …` starting with `to_do`. -/
theorem c7_toggle_alternates (h : InputHandler) (km : Keymap) (b : ℤ) (act : Action)
    (hsched : h.scheduled_events = [])
    (hkm : alookup h.mappings h.mode = some km)
    (hbind : alookup km.buttons b = some [⟨act, .toggle, false⟩]) :
    (h.get_toggle_state (toggleKey h.mode "buttons" (toString b) 0) = false →
      h.update [.buttonDown h.joystick_index b]
        = .ok ({ h with
                  toggle_states := aupdate h.toggle_states
                    (toggleKey h.mode "buttons" (toString b) 0) true },
               [.plain act], []))
    ∧ (h.get_toggle_state (toggleKey h.mode "buttons" (toString b) 0) = true →
      h.update [.buttonDown h.joystick_index b]
        = .ok ({ h with
                  toggle_states := aupdate h.toggle_states
                    (toggleKey h.mode "buttons" (toString b) 0) false },
               [], [act])) := by
  obtain ⟨ji, mrv, ac, mp, hc, md, se, sc, ua, ts⟩ := h
  simp only [InputHandler.scheduled_events] at hsched
  subst hsched
  constructor <;> intro ht <;>
    simp_all [InputHandler.update, updateLoop, processEvent, processEventCore,
      PyEvent.joy, PyEvent.isButtonDown, buttonStep, InputHandler.handle_toggle,
      InputHandler.get_toggle_state, hkm, hbind]

/-- The keymap of `sampleHandler` with button 0 bound as a press-edge
toggle, for C7's witness. -/
def c7Keymap : Keymap :=
  { buttons := [(0, [⟨.set "quality_modifier" 1, .toggle, false⟩])]
    hats := [("0:0:1", [⟨.play_scale_position 0, .momentary, false⟩]),
             ("0:-1:1", [⟨.play_scale_position 6, .momentary, false⟩]),
             ("0:-1:0", [⟨.play_scale_position 4, .momentary, false⟩])]
    axes := [(4, [⟨.set "velocity", 112, 0, 1, true, []⟩])] }

theorem c7_witness :
    (sampleHandler [⟨.set "quality_modifier" 1, .toggle, false⟩]).scheduled_events = []
    ∧ alookup (sampleHandler [⟨.set "quality_modifier" 1, .toggle, false⟩]).mappings
        (sampleHandler [⟨.set "quality_modifier" 1, .toggle, false⟩]).mode
      = some c7Keymap
    ∧ alookup c7Keymap.buttons 0 = some [⟨.set "quality_modifier" 1, .toggle, false⟩]
    ∧ (sampleHandler [⟨.set "quality_modifier" 1, .toggle, false⟩]).get_toggle_state
        (toggleKey "default" "buttons" "0" 0) = false
    ∧ (sampleHandler [⟨.set "quality_modifier" 1, .toggle, false⟩]).update
        [.buttonDown 0 0]
      = .ok ({ sampleHandler [⟨.set "quality_modifier" 1, .toggle, false⟩] with
                toggle_states :=
                  aupdate (sampleHandler
                    [⟨.set "quality_modifier" 1, .toggle, false⟩]).toggle_states
                    (toggleKey "default" "buttons" "0" 0) true },
             [.plain (.set "quality_modifier" 1)], []) := by
  refine ⟨by decide, by decide, by decide, by decide, ?_⟩
  exact (c7_toggle_alternates (sampleHandler [⟨.set "quality_modifier" 1, .toggle, false⟩])
    c7Keymap 0 (.set "quality_modifier" 1) (by decide) (by decide) (by decide)).1 (by decide)

/-- Handler for C6: `sampleHandler` with axis 4 flagged uncalibrated. -/
def c6Handler : InputHandler :=
  { sampleHandler [] with uncalibrated_axes := [4] }

/-- C6 counterexample: axis 4 is flagged uncalibrated, yet its first
axis-motion event BOTH clears the flag AND still produces the bound action
(`["set", "velocity", 0]` at full deflection) in the same pass — the
source's uncalibrated-axis branch only discards the flag and falls through,
it never drops the event. -/
theorem c6_counterexample :
    (4 : ℤ) ∈ c6Handler.uncalibrated_axes
    ∧ c6Handler.update [.axisMotion 0 4 1]
      = .ok ({ c6Handler with uncalibrated_axes := [] },
             [.scaled (.set "velocity") 0], []) := by
  constructor
  · decide
  · have hv : value_in_range
        (InputHandler.clamp_axis_value { c6Handler with uncalibrated_axes := [] } 4 1)
        112 0 1 true [] = .ok 0 := by
      have hperc :
          InputHandler.clamp_axis_value { c6Handler with uncalibrated_axes := [] } 4 1
          = 1 := by
        simp only [InputHandler.clamp_axis_value, c6Handler, sampleHandler, alookup, round3]
        norm_num
      rw [hperc]
      simp only [value_in_range, qpow]
      norm_num
    simp [InputHandler.update, updateLoop, processEvent, processEventCore,
      PyEvent.joy, PyEvent.isButtonDown, axisLoop, c6Handler, sampleHandler, alookup]
    simp only [InputHandler.clamp_axis_value, alookup, round3]
    simp only [value_in_range, qpow] at hv ⊢
    norm_num at hv ⊢

/-- C6 amended: the first axis-motion event for an uncalibrated axis clears
the flag but is otherwise processed exactly as if the axis were already
calibrated — `update` on the flagged handler coincides with `update` on the
handler whose flag is already discarded, so the event's actions are
produced, not dropped. -/
theorem c6_uncalibrated_axis_amended (h : InputHandler) (a : ℤ) (raw : ℚ)
    (hsched : h.scheduled_events = []) :
    h.update [.axisMotion h.joystick_index a raw]
      = ({ h with
            uncalibrated_axes := h.uncalibrated_axes.filter (fun x => x ≠ a) }).update
          [.axisMotion h.joystick_index a raw] := by
  obtain ⟨ji, mrv, ac, mp, hc, md, se, sc, ua, ts⟩ := h
  simp only [InputHandler.scheduled_events] at hsched
  subst hsched
  have hnm : a ∉ ua.filter (fun x => x ≠ a) := by simp
  have hj : ¬ ((PyEvent.axisMotion ji a raw).joy ≠ ji) := by simp [PyEvent.joy]
  unfold InputHandler.update
  simp only [updateLoop, List.append_nil]
  have hcore :
      processEvent (⟨ji, mrv, ac, mp, hc, md, [], sc, ua, ts⟩, [], [])
        (.axisMotion ji a raw)
      = processEvent (⟨ji, mrv, ac, mp, hc, md, [], sc, ua.filter (fun x => x ≠ a), ts⟩,
          [], []) (.axisMotion ji a raw) := by
    unfold processEvent
    dsimp only
    rw [if_neg hj, if_neg hj]
    unfold processEventCore
    dsimp only
    rw [if_neg hnm]
    by_cases hmem : a ∈ ua
    · rw [if_pos hmem]
    · rw [if_neg hmem]
      have hfe : ua.filter (fun x => x ≠ a) = ua := by
        rw [List.filter_eq_self]
        intro x hx
        simp only [ne_eq, decide_eq_true_eq]
        intro hxa
        exact hmem (hxa ▸ hx)
      rw [hfe]
  rw [hcore]

theorem c6_amended_witness :
    c6Handler.scheduled_events = []
    ∧ c6Handler.update [.axisMotion c6Handler.joystick_index 4 1]
      = ({ c6Handler with
            uncalibrated_axes :=
              c6Handler.uncalibrated_axes.filter (fun x => x ≠ 4) }).update
          [.axisMotion c6Handler.joystick_index 4 1] :=
  ⟨by decide, c6_uncalibrated_axis_amended c6Handler 4 1 (by decide)⟩

end CC
